import Mathlib

/-!
Shallow embedding of the indicator engine of `src/dashboard.py`: the
pandas-based technical indicators (`calculate_rsi`, `calculate_macd`,
`calculate_bollinger_bands`), the confluence-level aggregator
(`get_confluence_levels`), the ticker loader (`get_sp500_tickers`) and
the relevant control flow of the Dashboard page, together with theorems
settling the specification claims.

Series values are modelled as exact rationals.  Missing values (pandas
`NaN`) are modelled by `Option ℚ` in columns, and by the IEEE-style
value type `PVal` where the arithmetic on special values (division by
zero producing infinities, `NaN` propagation) matters.
-/

namespace Dash

/-- IEEE-style scalar as produced by pandas element-wise float
arithmetic: a finite value (modelled exactly as a rational), `+inf`,
`-inf`, or `NaN`. -/
inductive PVal where
  | num (q : ℚ)
  | pinf
  | ninf
  | nan
deriving DecidableEq

/-- IEEE addition: `NaN` propagates, opposite infinities give `NaN`,
an infinity absorbs finite values. -/
def PVal.add : PVal → PVal → PVal
  | .nan, _ => .nan
  | _, .nan => .nan
  | .num a, .num b => .num (a + b)
  | .pinf, .ninf => .nan
  | .ninf, .pinf => .nan
  | .pinf, _ => .pinf
  | _, .pinf => .pinf
  | .ninf, _ => .ninf
  | _, .ninf => .ninf

/-- IEEE negation. -/
def PVal.neg : PVal → PVal
  | .num a => .num (-a)
  | .pinf => .ninf
  | .ninf => .pinf
  | .nan => .nan

/-- IEEE subtraction, as addition of the negation. -/
def PVal.sub (x y : PVal) : PVal := x.add y.neg

/-- IEEE division as performed by pandas/NumPy on series elements: a
positive finite value divided by (positive) zero gives `+inf`, a
negative one `-inf`, `0/0` gives `NaN`, `NaN` propagates, a finite
value divided by an infinity gives `0`, and an infinity divided by an
infinity gives `NaN`.  (The zeros occurring in the program are the
positive zeros produced by `Series.where(cond, 0)`.) -/
def PVal.div : PVal → PVal → PVal
  | .nan, _ => .nan
  | _, .nan => .nan
  | .num a, .num b =>
      if b = 0 then (if a = 0 then .nan else if 0 < a then .pinf else .ninf)
      else .num (a / b)
  | .num _, .pinf => .num 0
  | .num _, .ninf => .num 0
  | .pinf, .num b => if 0 ≤ b then .pinf else .ninf
  | .ninf, .num b => if 0 ≤ b then .ninf else .pinf
  | .pinf, .pinf => .nan
  | .pinf, .ninf => .nan
  | .ninf, .pinf => .nan
  | .ninf, .ninf => .nan

/-- Conversion of a possibly-missing column entry to a `PVal`
(`NaN` for a missing entry). -/
def toPVal : Option ℚ → PVal
  | none => .nan
  | some q => .num q

/-- Conversion of a `PVal` back to a column entry: finite values are
kept, `NaN` (and infinities, which the RSI pipeline never produces)
become missing entries. -/
def PVal.toOpt : PVal → Option ℚ
  | .num q => some q
  | _ => none

/-- Arithmetic mean of a list of rationals (`sum / length`).  Every use
below applies it to a window of positive length. -/
def qmean (l : List ℚ) : ℚ := l.sum / (l.length : ℚ)

/-- The window of `rolling(window=w)` ending at index `i`:
`xs[i-w+1 .. i]`, taken from the source series. -/
def windowAt (xs : List ℚ) (w i : ℕ) : List ℚ := (xs.drop (i + 1 - w)).take w

/-- Core of `Series.rolling(window=w).mean()` for a positive window `w`
over a `NaN`-free series: the first `w-1` entries are `NaN`
(`min_periods` defaults to the window size), and entry `i ≥ w-1` is the
arithmetic mean of the `w` values ending at `i`. -/
def rollingMeanPos (xs : List ℚ) (w : ℕ) : List (Option ℚ) :=
  (List.range xs.length).map fun i =>
    if i + 1 < w then none else some (qmean (windowAt xs w i))

/-- Sample variance (`ddof = 1`) of a window of values. -/
def svar (l : List ℚ) : ℚ :=
  (l.map fun x => (x - qmean l) ^ 2).sum / ((l.length : ℚ) - 1)

/-- Aggregator of `Series.rolling(w).std()` on one window: the sample
standard deviation (`ddof = 1`), which is `NaN` on a single
observation.  The float square root is modelled by `Rat.sqrt`, exact
whenever the variance is a perfect rational square; no theorem below
depends on the numeric value of a defined standard-deviation entry. -/
def stdAgg (l : List ℚ) : Option ℚ :=
  if l.length ≤ 1 then none else some (Rat.sqrt (svar l))

/-- Core of `Series.rolling(window=w).std()` for a positive window. -/
def rollingStdPos (xs : List ℚ) (w : ℕ) : List (Option ℚ) :=
  (List.range xs.length).map fun i =>
    if i + 1 < w then none else stdAgg (windowAt xs w i)

/-- Message of the `ValueError` pandas raises when a rolling window is
negative. -/
def windowErrMsg : String := "window must be an integer 0 or greater"

/-- Full `Series.rolling(window=w).mean()` with pandas validation
semantics over an integer window: a negative window raises
`ValueError` (modelled as `.error`); `w = 0` yields an all-`NaN`
column (`min_periods` defaults to the window size `0`, and the mean of
an empty window is `NaN`); positive windows behave as
`rollingMeanPos`. -/
def rollingMean (xs : List ℚ) (w : ℤ) : Except String (List (Option ℚ)) :=
  if w < 0 then .error windowErrMsg
  else if w = 0 then .ok (xs.map fun _ => none)
  else .ok (rollingMeanPos xs w.toNat)

/-- Full `Series.rolling(window=w).std()` with pandas validation
semantics over an integer window; see `rollingMean`. -/
def rollingStd (xs : List ℚ) (w : ℤ) : Except String (List (Option ℚ)) :=
  if w < 0 then .error windowErrMsg
  else if w = 0 then .ok (xs.map fun _ => none)
  else .ok (rollingStdPos xs w.toNat)

/-- Tail recurrence of `Series.ewm(span=s, adjust=False).mean()`:
`y_i = (1-α)·y_(i-1) + α·x_i`. -/
def ewmAux (a prev : ℚ) : List ℚ → List ℚ
  | [] => []
  | x :: rest => ((1 - a) * prev + a * x) :: ewmAux a ((1 - a) * prev + a * x) rest

/-- `Series.ewm(span=span, adjust=False).mean()` over a `NaN`-free
series: smoothing factor `α = 2/(span+1)`, seeded by the first value
(`y_0 = x_0`), defined at every index. -/
def ewmMean (xs : List ℚ) (span : ℕ) : List ℚ :=
  match xs with
  | [] => []
  | x :: rest => x :: ewmAux (2 / ((span : ℚ) + 1)) x rest

/-- Entry `i` of `delta = Close.diff()`: `NaN` at index `0`, else
`Close[i] - Close[i-1]`. -/
def diffAt (xs : List ℚ) (i : ℕ) : Option ℚ :=
  if i = 0 then none else some (xs.getD i 0 - xs.getD (i - 1) 0)

/-- The series `delta.where(delta > 0, 0)` of `calculate_rsi`:
positions where the condition is false are replaced by `0` — including
the `NaN` of `diff()` at index `0`, for which the float comparison is
false — so the result is fully defined. -/
def gainSeries (xs : List ℚ) : List ℚ :=
  (List.range xs.length).map fun i =>
    match diffAt xs i with
    | some d => if 0 < d then d else 0
    | none => 0

/-- The series `(-delta.where(delta < 0, 0))` of `calculate_rsi`:
negative moves kept (and negated to a magnitude), everything else —
including the initial `NaN` — replaced by `0`. -/
def lossSeries (xs : List ℚ) : List ℚ :=
  (List.range xs.length).map fun i =>
    match diffAt xs i with
    | some d => if d < 0 then -d else 0
    | none => 0

/-- One entry of `100 - (100 / (1 + gain/loss))` computed with pandas
element-wise IEEE arithmetic from the rolling-average entries. -/
def rsiPoint (g l : Option ℚ) : PVal :=
  PVal.sub (.num 100)
    (PVal.div (.num 100) (PVal.add (.num 1) (PVal.div (toPVal g) (toPVal l))))

/-- The RSI column of `calculate_rsi(data, window)` as a `PVal`
series: rolling means of gains and losses, then the RSI formula. -/
def rsiColP (xs : List ℚ) (w : ℕ) : List PVal :=
  List.zipWith rsiPoint (rollingMeanPos (gainSeries xs) w)
    (rollingMeanPos (lossSeries xs) w)

/-- The RSI column as a frame column (`NaN` as a missing entry). -/
def rsiCol (xs : List ℚ) (w : ℕ) : List (Option ℚ) :=
  (rsiColP xs w).map PVal.toOpt

/-- The `MACD` column of `calculate_macd`: difference of the short and
long EWMs of the close column. -/
def macdList (xs : List ℚ) (short long : ℕ) : List ℚ :=
  List.zipWith (· - ·) (ewmMean xs short) (ewmMean xs long)

/-- A pandas DataFrame as used by the dashboard: the `NaN`-free `Close`
column (the frames reaching the indicator code have been `dropna()`ed
and are sliced from fetched data) plus the derived indicator columns.
In a field, `none` means the column is absent from the frame, and
`some col` a present column whose entries may individually be missing
(`NaN`). -/
structure Frame where
  close : List ℚ
  ma20 : Option (List (Option ℚ)) := none
  ma50 : Option (List (Option ℚ)) := none
  bbUpper : Option (List (Option ℚ)) := none
  bbLower : Option (List (Option ℚ)) := none
  rsi : Option (List (Option ℚ)) := none
  macd : Option (List (Option ℚ)) := none
  signal : Option (List (Option ℚ)) := none
deriving DecidableEq

/-- Value semantics of `calculate_rsi(data, window=14)`: the frame with
the `RSI` column assigned.  (The in-place mutation of the argument is
modelled separately by `calcRsiStep`.) -/
def calculate_rsi (f : Frame) (w : ℕ) : Frame :=
  { f with rsi := some (rsiCol f.close w) }

/-- Value semantics of `calculate_macd(data, short=12, long=26,
signal=9)`: `MACD` is the difference of the two close EWMs and
`Signal` the EWM of the just-assigned `MACD` column; both are fully
defined. -/
def calculate_macd (f : Frame) (short long sig : ℕ) : Frame :=
  { f with
    macd := some ((macdList f.close short long).map some)
    signal := some ((ewmMean (macdList f.close short long) sig).map some) }

/-- Value semantics of `calculate_bollinger_bands(data, window=20,
num_std=2)`: bands are the rolling mean plus/minus `num_std` rolling
standard deviations, missing where either rolling statistic is. -/
def calculate_bollinger_bands (f : Frame) (w : ℕ) (numStd : ℚ) : Frame :=
  { f with
    bbUpper := some (List.zipWith
      (fun m s =>
        match m, s with
        | some a, some b => some (a + b * numStd)
        | _, _ => none)
      (rollingMeanPos f.close w) (rollingStdPos f.close w))
    bbLower := some (List.zipWith
      (fun m s =>
        match m, s with
        | some a, some b => some (a - b * numStd)
        | _, _ => none)
      (rollingMeanPos f.close w) (rollingStdPos f.close w)) }

/-- The indicator-calculation block of the Dashboard page
(lines 181-190): each checked indicator is computed unconditionally on
the filtered frame — `MA20`/`MA50` as inline `rolling(...).mean()`
assignments, the rest through the three `calculate_*` functions with
their default parameters.  No bar-count threshold is consulted and
nothing records insufficiency. -/
def indicatorBlock (f : Frame) (showMa showBb showRsi showMacd : Bool) : Frame :=
  let f1 := if showMa then
      { f with ma20 := some (rollingMeanPos f.close 20)
               ma50 := some (rollingMeanPos f.close 50) }
    else f
  let f2 := if showBb then calculate_bollinger_bands f1 20 2 else f1
  let f3 := if showRsi then calculate_rsi f2 14 else f2
  if showMacd then calculate_macd f3 12 26 9 else f3

/-- The value of `col.iloc[-1]` as an optional rational: `none` both
for an empty column (Python `IndexError`) and for a `NaN` last
entry. -/
def latest (col : List (Option ℚ)) : Option ℚ := col.getLast?.join

/-- Python banker's rounding (`round` ties to even) of a rational to
the nearest integer. -/
def halfEven (q : ℚ) : ℤ :=
  if q - ⌊q⌋ < 1/2 then ⌊q⌋
  else if 1/2 < q - ⌊q⌋ then ⌊q⌋ + 1
  else if Even ⌊q⌋ then ⌊q⌋ else ⌊q⌋ + 1

/-- Exact-rational model of Python `round(x, 2)`. -/
def round2 (q : ℚ) : ℚ := (halfEven (q * 100) : ℚ) / 100

/-- The candidate pool collected by `get_confluence_levels(hist,
show_ma, show_bb)` (lines 45-50): per flag the latest `MA20`/`MA50`
resp. `BB_Upper`/`BB_Lower` values, then always `Close.max()` and
`Close.min()`.  The whole pool is `none` when a flagged column is
absent from the frame (Python `KeyError`). -/
def gclCandidates (f : Frame) (showMa showBb : Bool) : Option (List (Option ℚ)) := do
  let ma ← if showMa then
      match f.ma20, f.ma50 with
      | some a, some b => some [latest a, latest b]
      | _, _ => none
    else some ([] : List (Option ℚ))
  let bb ← if showBb then
      match f.bbUpper, f.bbLower with
      | some a, some b => some [latest a, latest b]
      | _, _ => none
    else some ([] : List (Option ℚ))
  some (ma ++ bb ++ [f.close.max?, f.close.min?])

/-- Sequencing of a candidate pool into a list of actual numbers:
`none` as soon as one entry is `NaN`. -/
def seqOpt : List (Option ℚ) → Option (List ℚ)
  | [] => some []
  | none :: _ => none
  | some x :: rest => (seqOpt rest).map (x :: ·)

/-- Semantics of `get_confluence_levels` (line 51):
`sorted(list(set([round(x, 2) for x in levels])))`, modelled as
deduplication followed by an ascending (insertion) sort.  When the
pool contains a `NaN` (an undefined latest indicator value, or the
max/min of an empty series), Python's `set` and `sorted` on
`NaN`-containing floats have implementation-defined contents and
order, so the result is modelled as undefined (`none`); otherwise it
is the ascending sort of the deduplicated rounded values. -/
def get_confluence_levels (f : Frame) (showMa showBb : Bool) : Option (List ℚ) :=
  (gclCandidates f showMa showBb).bind fun pool =>
    (seqOpt pool).map fun vals => List.insertionSort (· ≤ ·) (vals.map round2).dedup

/-- Reference/mutation semantics of `calculate_rsi` over a minimal
heap of frames: Python passes the DataFrame by reference,
`data["RSI"] = ...` updates the referenced object in place, and
`return data` returns the same reference. -/
def calcRsiStep (heap : ℕ → Frame) (r : ℕ) : (ℕ → Frame) × ℕ :=
  (Function.update heap r (calculate_rsi (heap r) 14), r)

/-- Externally visible steps taken by the Dashboard page for a chosen
date range (lines 136-159). -/
inductive DashAction where
  | fetch (intraday : Bool)
  | raiseInvalidRange
deriving DecidableEq

/-- Control flow of the Dashboard page around the fetch (dates
modelled as integral day numbers): the code branches only on
`start_date == end_date` and calls `yf.download` in both branches; no
validation precedes the fetch and no `InvalidRange` condition exists
anywhere in the program. -/
def dashboardFetchActions (startDate endDate : ℤ) : List DashAction :=
  if startDate = endDate then [.fetch true] else [.fetch false]

/-- Python `str.strip()` default whitespace test (the ASCII whitespace
characters; the ticker file is ASCII). -/
def pyIsSpace (c : Char) : Bool :=
  (c == ' ') || (c == '\t') || (c == '\n') || (c == '\r') ||
    (c == '\x0b') || (c == '\x0c')

/-- Python `str.strip()`: drop leading and trailing whitespace. -/
def pyStrip (s : String) : String :=
  ⟨((s.data.dropWhile pyIsSpace).reverse.dropWhile pyIsSpace).reverse⟩

/-- Semantics of `get_sp500_tickers` (lines 10-17): the file is
modelled as `none` when opening or reading it fails (the `except`
branch shows an error message and returns `[]`), or as `some lines` on
success, `lines` being the physical lines of the file.  The list
comprehension keeps `line.strip()` for each line whose stripped form
is non-empty. -/
def get_sp500_tickers (file : Option (List String)) : List String :=
  match file with
  | none => []
  | some lines => (lines.map pyStrip).filter fun t => t != ""

end Dash

namespace Dash

/-- Entry lookup in a column built by mapping a function over
`List.range`. -/
theorem getD_range_map {α : Type*} (f : ℕ → α) (n i : ℕ) (d : α) :
    ((List.range n).map f).getD i d = if i < n then f i else d := by
  rw [List.getD_eq_getElem?_getD, List.getElem?_map]
  by_cases h : i < n
  · rw [List.getElem?_range h]; simp [h]
  · rw [List.getElem?_eq_none (by simpa using Nat.le_of_not_lt h)]; simp [h]

@[simp] theorem length_gainSeries (xs : List ℚ) :
    (gainSeries xs).length = xs.length := by
  simp [gainSeries]

@[simp] theorem length_lossSeries (xs : List ℚ) :
    (lossSeries xs).length = xs.length := by
  simp [lossSeries]

@[simp] theorem length_rollingMeanPos (xs : List ℚ) (w : ℕ) :
    (rollingMeanPos xs w).length = xs.length := by
  simp [rollingMeanPos]

@[simp] theorem length_rollingStdPos (xs : List ℚ) (w : ℕ) :
    (rollingStdPos xs w).length = xs.length := by
  simp [rollingStdPos]

/-- Entry lookup for a positive-window rolling mean. -/
theorem rollingMeanPos_getD (xs : List ℚ) (w i : ℕ) :
    (rollingMeanPos xs w).getD i none =
      if i < xs.length ∧ ¬ i + 1 < w then some (qmean (windowAt xs w i))
      else none := by
  rw [rollingMeanPos, getD_range_map]
  by_cases h1 : i < xs.length <;> by_cases h2 : i + 1 < w <;> simp [h1, h2]

@[simp] theorem length_ewmAux (a prev : ℚ) (xs : List ℚ) :
    (ewmAux a prev xs).length = xs.length := by
  induction xs generalizing prev with
  | nil => rfl
  | cons x rest ih => simp [ewmAux, ih]

@[simp] theorem length_ewmMean (xs : List ℚ) (span : ℕ) :
    (ewmMean xs span).length = xs.length := by
  cases xs with
  | nil => rfl
  | cons x rest => simp [ewmMean]

@[simp] theorem length_macdList (xs : List ℚ) (short long : ℕ) :
    (macdList xs short long).length = xs.length := by
  simp [macdList]

/-- The RSI column written as a single map over indices. -/
theorem rsiCol_eq (xs : List ℚ) (w : ℕ) :
    rsiCol xs w = (List.range xs.length).map fun i =>
      (rsiPoint
        (if i + 1 < w then none else some (qmean (windowAt (gainSeries xs) w i)))
        (if i + 1 < w then none else some (qmean (windowAt (lossSeries xs) w i)))).toOpt := by
  rw [rsiCol, rsiColP, rollingMeanPos, rollingMeanPos,
    length_gainSeries, length_lossSeries, List.zipWith_map, List.zipWith_same,
    List.map_map]
  rfl

/-- Entry lookup in the RSI column at an in-range index, in terms of
the rolling gain and loss averages at that index. -/
theorem rsiCol_getD (xs : List ℚ) (w i : ℕ) (hi : i < xs.length) :
    (rsiCol xs w).getD i none =
      (rsiPoint ((rollingMeanPos (gainSeries xs) w).getD i none)
                ((rollingMeanPos (lossSeries xs) w).getD i none)).toOpt := by
  rw [rsiCol_eq, getD_range_map, rollingMeanPos_getD, rollingMeanPos_getD,
    length_gainSeries, length_lossSeries]
  by_cases h2 : i + 1 < w <;> simp [hi, h2]

/-- The RSI formula on a saturating index: positive average gain over a
zero average loss gives an infinite relative strength and an RSI of
exactly 100. -/
theorem rsiPoint_pos_zero (g : ℚ) (hg : 0 < g) :
    (rsiPoint (some g) (some 0)).toOpt = some 100 := by
  have hg' : g ≠ 0 := ne_of_gt hg
  simp only [rsiPoint, toPVal, PVal.div, if_pos rfl, if_neg hg', if_pos hg,
    PVal.add, PVal.sub, PVal.neg, PVal.toOpt]
  norm_num

/-- The RSI formula on a flat index: zero average gain over zero
average loss is `0/0`, which propagates to an undefined RSI. -/
theorem rsiPoint_zero_zero : (rsiPoint (some 0) (some 0)).toOpt = none := by
  decide

/-- The RSI formula on an index where the rolling averages are still
undefined. -/
theorem rsiPoint_none_none : (rsiPoint none none).toOpt = none := by
  decide

/-- Distinct rational multiples of `1/100` are more than `1/200`
apart. -/
theorem hundredth_gap (k1 k2 : ℤ) (hne : (k1 : ℚ) / 100 ≠ (k2 : ℚ) / 100) :
    1 / 200 < |(k1 : ℚ) / 100 - (k2 : ℚ) / 100| := by
  have hk : k1 - k2 ≠ 0 := by
    intro h
    exact hne (by have : k1 = k2 := by omega
                  rw [this])
  have h1 : (1 : ℤ) ≤ |k1 - k2| := Int.one_le_abs hk
  have h1q : (1 : ℚ) ≤ |((k1 - k2 : ℤ) : ℚ)| := by exact_mod_cast h1
  have heq : |(k1 : ℚ) / 100 - (k2 : ℚ) / 100| = |((k1 - k2 : ℤ) : ℚ)| / 100 := by
    rw [div_sub_div_same, abs_div]
    push_cast
    norm_num
  rw [heq]
  linarith

end Dash

namespace Dash

/-- Banker's rounding fixes integers. -/
theorem halfEven_intCast (n : ℤ) : halfEven ((n : ℚ)) = n := by
  rw [halfEven]
  norm_num

/-- Rounding an integer to two decimals returns it unchanged. -/
theorem round2_intCast (n : ℤ) : round2 ((n : ℚ)) = n := by
  have h : ((n : ℚ)) * 100 = (((n * 100 : ℤ)) : ℚ) := by push_cast; ring
  rw [round2, h, halfEven_intCast]
  push_cast
  rw [mul_div_assoc]
  norm_num

/-- Claim C1 (counterexample): with window `w = 2` on the two-bar
falling series `[2, 1]`, the RSI column is already defined at index
`1 = w - 1` (with value `0`), refuting the claim that the earliest
index that can carry a defined RSI value is index `w`.  The `NaN`
that `diff()` produces at index `0` is coerced to `0` by
`where(delta > 0, 0)`, so the rolling window is full one bar earlier
than the claim states. -/
theorem rsi_defined_before_window :
    (rsiCol [2, 1] 2).getD 1 none = some 0 := by
  have hg : gainSeries [2, 1] = [0, 0] := by
    have e : gainSeries [2, 1]
        = [0, if (0 : ℚ) < 1 - 2 then 1 - 2 else 0] := rfl
    rw [e]
    norm_num
  have hl : lossSeries [2, 1] = [0, 1] := by
    have e : lossSeries [2, 1]
        = [0, if (1 : ℚ) - 2 < 0 then -(1 - 2) else 0] := rfl
    rw [e]
    norm_num
  have hi : 1 < ([2, 1] : List ℚ).length := by simp
  rw [rsiCol_getD _ _ _ hi, rollingMeanPos_getD, rollingMeanPos_getD, hg, hl]
  rw [show windowAt [(0 : ℚ), 0] 2 1 = [0, 0] from rfl,
      show windowAt [(0 : ℚ), 1] 2 1 = [0, 1] from rfl]
  norm_num [qmean, rsiPoint, toPVal, PVal.div, PVal.add, PVal.sub, PVal.neg,
    PVal.toOpt]

/-- Claim C1 (amended): the RSI output column is undefined for the
first `w - 1` bars; the earliest index that can carry a defined RSI
value is `w - 1`, because the differencing `NaN` is replaced by `0` by
the `where` step and therefore does not delay the rolling window. -/
theorem rsi_undefined_on_first_bars (xs : List ℚ) (w i : ℕ) (h : i + 1 < w) :
    (rsiCol xs w).getD i none = none := by
  by_cases hi : i < xs.length
  · rw [rsiCol_getD xs w i hi, rollingMeanPos_getD, rollingMeanPos_getD]
    simp [h, rsiPoint_none_none]
  · rw [rsiCol_eq, getD_range_map]
    simp [hi]

/-- Witness for the amended C1 theorem at a concrete input. -/
theorem rsi_undefined_on_first_bars_witness :
    2 + 1 < 14 ∧ (rsiCol [1, 2, 3] 14).getD 2 none = none :=
  ⟨by decide, rsi_undefined_on_first_bars [1, 2, 3] 14 2 (by decide)⟩

end Dash

namespace Dash

/-- Claim C2 (counterexample): with both indicator sources disabled
(`show_ma = show_bb = False`) on a one-bar series, the aggregator does
not return an empty level list: it returns the rounded close maximum
and minimum. -/
theorem confluence_all_disabled_nonempty :
    get_confluence_levels
      ⟨[10], none, none, none, none, none, none, none⟩ false false
      = some [10] := by
  have hr : round2 (10 : ℚ) = 10 := by
    have h := round2_intCast 10
    push_cast at h
    exact h
  have hmax : ([10] : List ℚ).max? = some 10 := rfl
  have hmin : ([10] : List ℚ).min? = some 10 := rfl
  simp [get_confluence_levels, gclCandidates, hmax, hmin, seqOpt, hr,
    List.insertionSort, List.orderedInsert]

/-- Claim C2 (amended): when every candidate indicator source is
disabled, the aggregator still collects the series close maximum and
minimum unconditionally, so for a non-empty series it returns — without
raising — a non-empty level list containing both rounded close
extremes. -/
theorem confluence_close_levels_always (f : Frame) (h : f.close ≠ []) :
    ∃ l, get_confluence_levels f false false = some l ∧ l ≠ [] ∧
      (∀ m, f.close.max? = some m → round2 m ∈ l) ∧
      ∀ m, f.close.min? = some m → round2 m ∈ l := by
  obtain ⟨m, hm⟩ : ∃ m, f.close.max? = some m := by
    cases hmx : f.close.max? with
    | none => exact absurd (List.max?_eq_none_iff.mp hmx) h
    | some m => exact ⟨m, rfl⟩
  obtain ⟨m', hm'⟩ : ∃ m', f.close.min? = some m' := by
    cases hmn : f.close.min? with
    | none => exact absurd (List.min?_eq_none_iff.mp hmn) h
    | some m' => exact ⟨m', rfl⟩
  have hmem : round2 m ∈ List.insertionSort (· ≤ ·) ([m, m'].map round2).dedup := by
    rw [(List.perm_insertionSort (· ≤ ·) _).mem_iff, List.mem_dedup]
    exact List.mem_map.mpr ⟨m, by simp⟩
  have hmem' : round2 m' ∈ List.insertionSort (· ≤ ·) ([m, m'].map round2).dedup := by
    rw [(List.perm_insertionSort (· ≤ ·) _).mem_iff, List.mem_dedup]
    exact List.mem_map.mpr ⟨m', by simp⟩
  refine ⟨List.insertionSort (· ≤ ·) ([m, m'].map round2).dedup, ?_,
    List.ne_nil_of_mem hmem, ?_, ?_⟩
  · simp [get_confluence_levels, gclCandidates, hm, hm', seqOpt]
  · intro x hx
    rw [hm] at hx
    cases hx
    exact hmem
  · intro x hx
    rw [hm'] at hx
    cases hx
    exact hmem'

/-- Witness for the amended C2 theorem at a concrete input. -/
theorem confluence_close_levels_always_witness :
    ∃ l, get_confluence_levels
        ⟨[1, 3], none, none, none, none, none, none, none⟩ false false
        = some l ∧ l ≠ [] := by
  obtain ⟨l, h1, h2, _, _⟩ :=
    confluence_close_levels_always
      ⟨[1, 3], none, none, none, none, none, none, none⟩ (by decide)
  exact ⟨l, h1, h2⟩

end Dash

namespace Dash

/-- Claim C3 (counterexample): on a 10-bar series with moving averages
enabled, the `MA50` column (threshold 50 > 10) is present in the
output frame, not absent as the claim requires. -/
theorem ma50_column_present_when_short :
    (indicatorBlock ⟨[1, 2, 3, 4, 5, 6, 7, 8, 9, 10],
        none, none, none, none, none, none, none⟩
      true false false false).ma50 ≠ none := by
  decide

/-- Claim C3 (amended): an enabled indicator is always computed; when
its minimum-bar threshold exceeds the series length, its column is
present but entirely undefined (here: `MA50` on fewer than 50 bars),
and nothing in the output records which thresholds were unmet. -/
theorem ma50_all_undefined_when_short (f : Frame) (sBb sRsi sMacd : Bool)
    (h : f.close.length < 50) :
    ∃ col, (indicatorBlock f true sBb sRsi sMacd).ma50 = some col ∧
      col.length = f.close.length ∧ ∀ x ∈ col, x = none := by
  have hcol : (indicatorBlock f true sBb sRsi sMacd).ma50
      = some (rollingMeanPos f.close 50) := by
    cases sBb <;> cases sRsi <;> cases sMacd <;>
      simp [indicatorBlock, calculate_bollinger_bands, calculate_rsi,
        calculate_macd]
  refine ⟨rollingMeanPos f.close 50, hcol, by simp, ?_⟩
  intro x hx
  rw [rollingMeanPos] at hx
  obtain ⟨i, hi, rfl⟩ := List.mem_map.mp hx
  rw [List.mem_range] at hi
  rw [if_pos (by omega)]

/-- Witness for the amended C3 theorem at a concrete input. -/
theorem ma50_all_undefined_when_short_witness :
    ([1, 2, 3] : List ℚ).length < 50 ∧
    ∃ col, (indicatorBlock ⟨[1, 2, 3], none, none, none, none, none, none, none⟩
        true false false false).ma50 = some col ∧ col.length = 3 := by
  refine ⟨by decide, ?_⟩
  obtain ⟨col, h1, h2, _⟩ :=
    ma50_all_undefined_when_short
      ⟨[1, 2, 3], none, none, none, none, none, none, none⟩ false false false
      (by decide)
  exact ⟨col, h1, by simpa using h2⟩

/-- Claim C4 (counterexample): with `start = 1 > end = 0` the Dashboard
page goes straight to the daily `yf.download` call; no `InvalidRange`
condition is raised before (or after) the fetch. -/
theorem no_invalid_range_check_example :
    dashboardFetchActions 1 0 = [DashAction.fetch false] ∧
    DashAction.raiseInvalidRange ∉ dashboardFetchActions 1 0 := by
  decide

/-- Claim C4 (amended): the Dashboard page performs no date-range
validation: whenever `start > end` (hence `start ≠ end`) the daily
fetch is attempted, and no `InvalidRange` condition exists in the
program. -/
theorem fetch_attempted_when_start_gt_end (s e : ℤ) (h : e < s) :
    dashboardFetchActions s e = [DashAction.fetch false] ∧
    DashAction.raiseInvalidRange ∉ dashboardFetchActions s e := by
  have hne : ¬ s = e := by omega
  rw [dashboardFetchActions, if_neg hne]
  exact ⟨rfl, by simp⟩

/-- Witness for the amended C4 theorem at a concrete input. -/
theorem fetch_attempted_when_start_gt_end_witness :
    (3 : ℤ) < 5 ∧ dashboardFetchActions 5 3 = [DashAction.fetch false] :=
  ⟨by decide, (fetch_attempted_when_start_gt_end 5 3 (by decide)).1⟩

/-- Claim C5 (counterexample): `calculate_rsi` mutates the frame the
caller passed in: after the call, the object behind the caller's
reference differs from the frame that was passed (it has gained the
RSI column). -/
theorem calculate_rsi_mutates_caller :
    (calcRsiStep
        (fun _ => ⟨[1, 2], none, none, none, none, none, none, none⟩) 0).1 0
      ≠ (⟨[1, 2], none, none, none, none, none, none, none⟩ : Frame) := by
  decide

/-- Claim C5 (amended): the indicator functions annotate the passed
frame in place and return the very same reference: after
`calculate_rsi(data)`, the caller's retained reference points to the
returned object and observes the added RSI column (no copy is
made). -/
theorem calculate_rsi_in_place_semantics (heap : ℕ → Frame) (r : ℕ) :
    (calcRsiStep heap r).2 = r ∧
    (calcRsiStep heap r).1 r = calculate_rsi (heap r) 14 ∧
    ((calcRsiStep heap r).1 r).rsi = some (rsiCol (heap r).close 14) := by
  refine ⟨rfl, ?_, ?_⟩
  · simp [calcRsiStep, Function.update_same]
  · simp [calcRsiStep, Function.update_same, calculate_rsi]

end Dash

namespace Dash

/-- Claim C6 (confirmed): at every index where the rolling averages
are defined, a zero average loss with positive average gain yields an
RSI of exactly 100, and a zero average gain with zero average loss
(flat price) yields an undefined RSI — neither 0 nor 100.  In the
code the saturation comes from well-defined IEEE semantics
(`gain/0 = +inf`, `100 - 100/(1 + inf) = 100`; `0/0 = NaN`
propagates), not from a raised division fault. -/
theorem rsi_saturation_and_flat_undefined (xs : List ℚ) (w i : ℕ) (g l : ℚ)
    (hi : i < xs.length)
    (hg : (rollingMeanPos (gainSeries xs) w).getD i none = some g)
    (hl : (rollingMeanPos (lossSeries xs) w).getD i none = some l) :
    (l = 0 → 0 < g → (rsiCol xs w).getD i none = some 100) ∧
    (l = 0 → g = 0 → (rsiCol xs w).getD i none = none) := by
  simp only [rsiCol_getD xs w i hi, hg, hl]
  constructor
  · rintro rfl hgpos
    exact rsiPoint_pos_zero g hgpos
  · rintro rfl rfl
    exact rsiPoint_zero_zero

/-- Witness for the C6 theorem: a rising two-bar series saturates RSI
to 100 at index 1 with window 1, and a flat two-bar series leaves RSI
undefined there. -/
theorem rsi_saturation_and_flat_undefined_witness :
    (rsiCol [0, 1] 1).getD 1 none = some 100 ∧
    (rsiCol [5, 5] 1).getD 1 none = none := by
  constructor
  · have eg : gainSeries [0, 1] = [0, 1] := by
      have e : gainSeries [0, 1]
          = [0, if (0 : ℚ) < 1 - 0 then 1 - 0 else 0] := rfl
      rw [e]; norm_num
    have el : lossSeries [0, 1] = [0, 0] := by
      have e : lossSeries [0, 1]
          = [0, if (1 : ℚ) - 0 < 0 then -(1 - 0) else 0] := rfl
      rw [e]; norm_num
    have hg : (rollingMeanPos (gainSeries [0, 1]) 1).getD 1 none = some 1 := by
      rw [rollingMeanPos_getD, eg,
        show windowAt [(0 : ℚ), 1] 1 1 = [1] from rfl]
      norm_num [qmean]
    have hl : (rollingMeanPos (lossSeries [0, 1]) 1).getD 1 none = some 0 := by
      rw [rollingMeanPos_getD, el,
        show windowAt [(0 : ℚ), 0] 1 1 = [0] from rfl]
      norm_num [qmean]
    exact (rsi_saturation_and_flat_undefined [0, 1] 1 1 1 0 (by decide) hg hl).1
      rfl (by norm_num)
  · have eg : gainSeries [5, 5] = [0, 0] := by
      have e : gainSeries [5, 5]
          = [0, if (0 : ℚ) < 5 - 5 then 5 - 5 else 0] := rfl
      rw [e]; norm_num
    have el : lossSeries [5, 5] = [0, 0] := by
      have e : lossSeries [5, 5]
          = [0, if (5 : ℚ) - 5 < 0 then -(5 - 5) else 0] := rfl
      rw [e]; norm_num
    have hg : (rollingMeanPos (gainSeries [5, 5]) 1).getD 1 none = some 0 := by
      rw [rollingMeanPos_getD, eg,
        show windowAt [(0 : ℚ), 0] 1 1 = [0] from rfl]
      norm_num [qmean]
    have hl : (rollingMeanPos (lossSeries [5, 5]) 1).getD 1 none = some 0 := by
      rw [rollingMeanPos_getD, el,
        show windowAt [(0 : ℚ), 0] 1 1 = [0] from rfl]
      norm_num [qmean]
    exact (rsi_saturation_and_flat_undefined [5, 5] 1 1 0 0 (by decide) hg hl).2
      rfl rfl

/-- Claim C7 (confirmed): `ewm(span, adjust=False).mean()` is seeded
by the first value — `ema[0] = values[0]` exactly, for every span —
and the EWM-based MACD and Signal columns have no undefined prefix:
they are present and defined at every index of the frame. -/
theorem ewm_seed_and_macd_total (v : ℚ) (vs : List ℚ) (span short long sig : ℕ)
    (f : Frame) :
    (ewmMean (v :: vs) span).head? = some v ∧
    ∃ mcol scol, (calculate_macd f short long sig).macd = some mcol ∧
      (calculate_macd f short long sig).signal = some scol ∧
      mcol.length = f.close.length ∧ scol.length = f.close.length ∧
      (∀ x ∈ mcol, x ≠ none) ∧ ∀ x ∈ scol, x ≠ none := by
  refine ⟨rfl, (macdList f.close short long).map some,
    (ewmMean (macdList f.close short long) sig).map some,
    rfl, rfl, by simp, by simp, ?_, ?_⟩
  · intro x hx
    obtain ⟨a, _, rfl⟩ := List.mem_map.mp hx
    simp
  · intro x hx
    obtain ⟨a, _, rfl⟩ := List.mem_map.mp hx
    simp

/-- Witness for the C7 theorem at a concrete input. -/
theorem ewm_seed_and_macd_total_witness :
    (ewmMean [1, 2] 9).head? = some 1 ∧
    (calculate_macd ⟨[3, 4], none, none, none, none, none, none, none⟩
      12 26 9).macd ≠ none := by
  have h := ewm_seed_and_macd_total 1 [2] 9 12 26 9
    ⟨[3, 4], none, none, none, none, none, none, none⟩
  refine ⟨h.1, ?_⟩
  obtain ⟨mcol, scol, hm, _⟩ := h.2
  rw [hm]
  simp

end Dash

namespace Dash

/-- Claim C8 (counterexample): on a 20-bar series with moving averages
enabled, the latest `MA50` value is undefined (20 < 50 bars), the
undefined value enters the candidate pool, and no well-defined sorted
numeric level list is produced (the Python result contains `NaN`,
whose position under `sorted` is implementation-defined and which is
ordered neither strictly above nor below its neighbours). -/
theorem confluence_not_sorted_with_undefined :
    get_confluence_levels
      (indicatorBlock
        ⟨[1, 2, 3, 4, 5, 6, 7, 8, 9, 10, 11, 12, 13, 14, 15, 16, 17, 18, 19, 20],
          none, none, none, none, none, none, none⟩
        true false false false)
      true false = none := by
  decide

/-- Claim C8 (amended): whenever the aggregator produces a level list
(every collected candidate is defined), that list is strictly sorted
ascending, duplicate-free, consists of values rounded to 2 decimal
places (integer multiples of `1/100`), and no two of its entries lie
within `0.005` of each other. -/
theorem confluence_sorted_dedup_rounded (f : Frame) (sMa sBb : Bool) (l : List ℚ)
    (h : get_confluence_levels f sMa sBb = some l) :
    List.Sorted (· < ·) l ∧ l.Nodup ∧
    (∀ x ∈ l, ∃ k : ℤ, x = (k : ℚ) / 100) ∧
    ∀ x ∈ l, ∀ y ∈ l, x ≠ y → 1 / 200 < |x - y| := by
  rw [get_confluence_levels] at h
  obtain ⟨pool, hpool, h2⟩ := Option.bind_eq_some.mp h
  obtain ⟨vals, hvals, rfl⟩ := Option.map_eq_some'.mp h2
  have hnodup : (List.insertionSort (· ≤ ·) (vals.map round2).dedup).Nodup :=
    ((List.perm_insertionSort (· ≤ ·) _).nodup_iff).mpr (List.nodup_dedup _)
  have hform : ∀ x ∈ List.insertionSort (· ≤ ·) (vals.map round2).dedup,
      ∃ k : ℤ, x = (k : ℚ) / 100 := by
    intro x hx
    rw [(List.perm_insertionSort (· ≤ ·) _).mem_iff, List.mem_dedup] at hx
    obtain ⟨v, _, rfl⟩ := List.mem_map.mp hx
    exact ⟨halfEven (v * 100), rfl⟩
  refine ⟨(List.sorted_insertionSort (· ≤ ·) _).lt_of_le hnodup, hnodup, hform, ?_⟩
  intro x hx y hy hxy
  obtain ⟨k1, hk1⟩ := hform x hx
  obtain ⟨k2, hk2⟩ := hform y hy
  subst hk1
  subst hk2
  exact hundredth_gap k1 k2 hxy

/-- Witness for the amended C8 theorem at a concrete input. -/
theorem confluence_sorted_dedup_rounded_witness :
    get_confluence_levels ⟨[7], none, none, none, none, none, none, none⟩
      false false = some [7] ∧ List.Sorted (· < ·) ([7] : List ℚ) := by
  have hr : round2 (7 : ℚ) = 7 := by
    have h := round2_intCast 7
    push_cast at h
    exact h
  have hmax : ([7] : List ℚ).max? = some 7 := rfl
  have hmin : ([7] : List ℚ).min? = some 7 := rfl
  have hgcl : get_confluence_levels ⟨[7], none, none, none, none, none, none, none⟩
      false false = some [7] := by
    simp [get_confluence_levels, gclCandidates, hmax, hmin, seqOpt, hr,
      List.insertionSort, List.orderedInsert]
  exact ⟨hgcl, (confluence_sorted_dedup_rounded _ false false [7] hgcl).1⟩

/-- Claim C9 (counterexample): a negative rolling window is not
degenerate-but-safe: pandas raises a `ValueError` from
`rolling(window=-1)`, for both the mean and the std. -/
theorem rolling_negative_window_raises :
    rollingMean [1, 2, 3] (-1) = .error windowErrMsg ∧
    rollingStd [1, 2, 3] (-1) = .error windowErrMsg :=
  ⟨rfl, rfl⟩

/-- Claim C9 (amended): for a zero window, or a positive window larger
than the sequence length, `rolling(...).mean()` and
`rolling(...).std()` return an entirely-undefined output of the same
length as the input without raising; a negative window raises
`ValueError`. -/
theorem rolling_degenerate_window_all_undefined (xs : List ℚ) (w : ℤ)
    (h : w = 0 ∨ 0 < w ∧ (xs.length : ℤ) < w) :
    ∃ cm cs, rollingMean xs w = .ok cm ∧ rollingStd xs w = .ok cs ∧
      cm.length = xs.length ∧ cs.length = xs.length ∧
      (∀ x ∈ cm, x = none) ∧ ∀ x ∈ cs, x = none := by
  rcases h with rfl | ⟨hpos, hlen⟩
  · refine ⟨xs.map fun _ => none, xs.map fun _ => none, rfl, rfl,
      by simp, by simp, ?_, ?_⟩
    · intro x hx
      obtain ⟨_, _, rfl⟩ := List.mem_map.mp hx
      rfl
    · intro x hx
      obtain ⟨_, _, rfl⟩ := List.mem_map.mp hx
      rfl
  · have h0 : ¬ w < 0 := by omega
    have h1 : ¬ w = 0 := by omega
    refine ⟨rollingMeanPos xs w.toNat, rollingStdPos xs w.toNat, ?_, ?_,
      by simp, by simp, ?_, ?_⟩
    · rw [rollingMean, if_neg h0, if_neg h1]
    · rw [rollingStd, if_neg h0, if_neg h1]
    · intro x hx
      rw [rollingMeanPos] at hx
      obtain ⟨i, hi, rfl⟩ := List.mem_map.mp hx
      rw [List.mem_range] at hi
      rw [if_pos (by omega)]
    · intro x hx
      rw [rollingStdPos] at hx
      obtain ⟨i, hi, rfl⟩ := List.mem_map.mp hx
      rw [List.mem_range] at hi
      rw [if_pos (by omega)]

/-- Witness for the amended C9 theorem at a concrete input. -/
theorem rolling_degenerate_window_all_undefined_witness :
    ((([1, 2] : List ℚ).length : ℤ) < 5) ∧
    ∃ cm cs, rollingMean [1, 2] 5 = .ok cm ∧ rollingStd [1, 2] 5 = .ok cs ∧
      ∀ x ∈ cm, x = none := by
  refine ⟨by decide, ?_⟩
  obtain ⟨cm, cs, h1, h2, _, _, h5, _⟩ :=
    rolling_degenerate_window_all_undefined [1, 2] 5
      (Or.inr ⟨by decide, by decide⟩)
  exact ⟨cm, cs, h1, h2, h5⟩

/-- Claim C10 (confirmed): `get_sp500_tickers` never raises — on any
failure to open or read the ticker file it returns the empty list, and
on success every returned element is the whitespace-stripped form of
some line of the file and is non-empty (blank lines are dropped). -/
theorem get_sp500_tickers_spec :
    get_sp500_tickers none = [] ∧
    ∀ lines t, t ∈ get_sp500_tickers (some lines) →
      t ≠ "" ∧ ∃ lne ∈ lines, t = pyStrip lne := by
  refine ⟨rfl, fun lines t ht => ?_⟩
  rw [get_sp500_tickers, List.mem_filter] at ht
  obtain ⟨hmem, hne⟩ := ht
  obtain ⟨lne, hl, rfl⟩ := List.mem_map.mp hmem
  refine ⟨?_, lne, hl, rfl⟩
  simpa using hne

/-- Witness for the C10 theorem at a concrete input. -/
theorem get_sp500_tickers_spec_witness :
    "AAPL" ∈ get_sp500_tickers (some [ "  AAPL ", "", "   " ]) ∧
    ("AAPL" ≠ "" ∧ ∃ lne ∈ [ "  AAPL ", "", "   " ], "AAPL" = pyStrip lne) := by
  have hmem : "AAPL" ∈ get_sp500_tickers (some [ "  AAPL ", "", "   " ]) := by
    decide
  exact ⟨hmem, get_sp500_tickers_spec.2 _ _ hmem⟩

end Dash
